import Mathlib

set_option maxRecDepth 60000

/-!
Verification development for the sales analyst agent repository.

The Python sources are shallowly embedded: pure string manipulation is
translated to Lean functions on `String`/`List Char`, the sqlite connection
is an explicit record of the query operations the code performs, external
effects (the LLM call, wall-clock timestamps) are oracle parameters, and
fallible Python code is modelled in `Except`, with uncaught exceptions made
explicit in outcome types.
-/

/-! ## Python string primitives (ASCII semantics, executable) -/

/-- ASCII lowering of one character, the fragment of Python str.lower used here. -/
def charLower (c : Char) : Char :=
  if 'A' ≤ c && c ≤ 'Z' then Char.ofNat (c.toNat + 32) else c

/-- ASCII raising of one character, the fragment of Python str.upper used here. -/
def charUpper (c : Char) : Char :=
  if 'a' ≤ c && c ≤ 'z' then Char.ofNat (c.toNat - 32) else c

/-- Embedding of Python str.lower restricted to ASCII input. -/
def pyLower (s : String) : String := ⟨s.data.map charLower⟩

/-- Embedding of Python str.upper restricted to ASCII input. -/
def pyUpper (s : String) : String := ⟨s.data.map charUpper⟩

/-- Whitespace recognised by Python str.strip (space, tab, newline, carriage return). -/
def isPySpace (c : Char) : Bool :=
  c == Char.ofNat 32 || c == Char.ofNat 9 || c == Char.ofNat 10 || c == Char.ofNat 13

/-- Embedding of Python str.strip. -/
def pyStrip (s : String) : String :=
  ⟨((s.data.dropWhile isPySpace).reverse.dropWhile isPySpace).reverse⟩

/-- Truthiness of a Python string: nonempty strings are truthy. -/
def pyTruthyStr (s : String) : Bool := s ≠ ""

/-- Does the pattern occur at the head of the list? Helper for the embedding of
the Python substring test. -/
def matchHere : List Char → List Char → Bool
  | _, [] => true
  | [], _ :: _ => false
  | c :: cs, p :: ps => c == p && matchHere cs ps

/-- Embedding of the Python substring test (pat in s) on character lists. -/
def containsSub : List Char → List Char → Bool
  | [], pat => pat.isEmpty
  | c :: cs, pat => matchHere (c :: cs) pat || containsSub cs pat

/-! ## The SQL tool (src/src/analysis_agent_spec.py, sql_executor)

The sqlite connection is a record of what executing a piece of SQL text would
return: either rows (each row a mapping from column name to a printed value)
or the message of a raised sqlite3.Error. The crucial point of the source is
that cursor.execute is called with the builtin type object str, not with the
query parameter; the sqlite3 library raises TypeError when handed a
non-string statement, and TypeError is not a subclass of sqlite3.Error. -/

/-- A row returned by sqlite with row_factory = sqlite3.Row, converted by
dict(row) in the source: a mapping from column name to value. -/
def SqlRow : Type := List (String × String)

/-- Python exceptions distinguished by the tool body: sqlite3.Error (caught)
and TypeError (not caught). -/
inductive PyExc
  | typeError
  | sqliteError (msg : String)
deriving DecidableEq

/-- The underlying sqlite database state, observed through the single
operation the tool performs: executing SQL text. -/
structure SqliteDB where
  run : String → Except String (List SqlRow)

/-- The argument actually handed to cursor.execute: either genuine query text,
or the builtin type object str, which is what the source passes. -/
inductive ExecuteArg
  | queryText (q : String)
  | strBuiltin

/-- Semantics of cursor.execute followed by fetchall: query text runs against
the store and a sqlite failure surfaces as sqlite3.Error, while the non-string
builtin type object is rejected by the sqlite3 binding with TypeError. -/
def cursorExecute (db : SqliteDB) : ExecuteArg → Except PyExc (List SqlRow)
  | .queryText q =>
    match db.run q with
    | .ok rows => .ok rows
    | .error msg => .error (.sqliteError msg)
  | .strBuiltin => .error .typeError

/-- The dictionary value the tool returns: a results key or an error key. -/
inductive SqlToolDict
  | resultsKey (rows : List SqlRow)
  | errorKey (msg : String)

/-- Observable outcome of one call of the tool: a normal return of a
dictionary, or an exception escaping the call. -/
inductive SqlOutcome
  | returns (d : SqlToolDict)
  | raises (e : PyExc)

/-- Embedding of sql_executor (analysis_agent_spec.py lines 27-39). The body
executes ExecuteArg.strBuiltin because the source line reads
cursor.execute(str); only sqlite3.Error is caught and turned into the error
dictionary, every other exception escapes. The query parameter is received
but never consulted. -/
def sql_executor (db : SqliteDB) (query : String) : SqlOutcome :=
  match cursorExecute db ExecuteArg.strBuiltin with
  | .ok rows => .returns (.resultsKey rows)
  | .error (.sqliteError e) => .returns (.errorKey e)
  | .error .typeError => .raises .typeError

/-! ## Claim theorems for the SQL tool -/

/-- Claim C1: the outcome of sql_executor on one database state is the same
for every pair of caller-supplied query strings, because the query text is
never forwarded to execution. -/
theorem sql_executor_query_independent :
    ∀ (db : SqliteDB) (q1 q2 : String), sql_executor db q1 = sql_executor db q2 :=
  fun _ _ _ => rfl

/-- Claim C2 (evaluation at the failing input): on every database state the
call sql_executor db "SELECT 1" does not return a dictionary at all; the
TypeError raised by executing the builtin type object str escapes the
except sqlite3.Error clause. -/
theorem sql_executor_raises_typeError :
    ∀ (db : SqliteDB), sql_executor db "SELECT 1" = SqlOutcome.raises PyExc.typeError :=
  fun _ => rfl

/-! ## Conversation history of EnhancedSalesDataAnalyst
(src/src/analysis_agent.py, chat lines 334-378 and reset_conversation lines
380-384)

One history entry is the dictionary appended by chat: timestamp, role and
content. The agent run inside chat (Context construction plus asyncio.run) is
an external effect; its result for a given turn is an oracle value: either
the response text together with the timestamp taken for the assistant entry,
or the message of the exception that the except clause catches. -/

/-- One element of self.conversation_history. -/
structure HistEntry where
  timestamp : String
  role : String
  content : String
deriving DecidableEq

/-- Oracle outcome of the agent run inside one chat call: success carries the
assistant timestamp and the response text, failure the exception message. -/
inductive ChatOutcome
  | success (ts2 : String) (resp : String)
  | failure (err : String)
deriving DecidableEq

/-- Embedding of EnhancedSalesDataAnalyst.chat: on success the user entry and
the assistant entry are appended in that order and the response is returned;
on any exception nothing is appended and an error string is returned. -/
def chat (h : List HistEntry) (ts : String) (user_message : String)
    (outcome : ChatOutcome) : List HistEntry × String :=
  match outcome with
  | .success ts2 resp =>
    (h ++ [⟨ts, "user", user_message⟩, ⟨ts2, "assistant", resp⟩], resp)
  | .failure err => (h, "Error during chat: " ++ err)

/-- Embedding of EnhancedSalesDataAnalyst.reset_conversation: the history is
replaced by the empty list. -/
def reset_conversation (_h : List HistEntry) : List HistEntry := []

/-- One operation of a session acting on the conversation history: a chat call
with its oracle outcome, or a reset. -/
inductive AgentOp
  | chatOp (ts : String) (msg : String) (outcome : ChatOutcome)
  | resetOp
deriving DecidableEq

/-- Effect of one operation on the stored history. -/
def applyOp (h : List HistEntry) : AgentOp → List HistEntry
  | .chatOp ts msg outcome => (chat h ts msg outcome).1
  | .resetOp => reset_conversation h

/-- Effect of a sequence of operations on the stored history. -/
def runOps (h : List HistEntry) (ops : List AgentOp) : List HistEntry :=
  ops.foldl applyOp h

/-- Strict user/assistant alternation check: the history is a sequence of
pairs, a user entry followed by an assistant entry. -/
def alternatesUA : List HistEntry → Bool
  | [] => true
  | [_] => false
  | u :: a :: rest => u.role == "user" && a.role == "assistant" && alternatesUA rest

/-! ## The session read-eval loop of main.py (lines 30-55) -/

/-- What one loop iteration of the main.py driver does: leave the loop, or go
to the next iteration with a possibly updated history. -/
inductive SessionAction
  | exitLoop
  | nextIter (h : List HistEntry)
deriving DecidableEq

/-- Embedding of one iteration of the main.py session loop: strip the raw
input; empty input is skipped; exit, quit and bye (lowercased) break the
loop; reset empties the history; history only prints; anything else is a
chat turn. -/
def mainLoopStep (h : List HistEntry) (raw : String) (ts : String)
    (outcome : ChatOutcome) : SessionAction :=
  let user_input := pyStrip raw
  if user_input = "" then .nextIter h
  else if ["exit", "quit", "bye"].contains (pyLower user_input) then .exitLoop
  else if pyLower user_input = "reset" then .nextIter (reset_conversation h)
  else if pyLower user_input = "history" then .nextIter h
  else .nextIter (chat h ts user_input outcome).1

/-- Embedding of the while condition of financial_analyst_agent
(analysis_agent_spec.py line 63). The Python expression is
the disequality test or-ed with the string literal bye; or returns its first
operand when that operand is truthy, otherwise its second operand, and the
while statement then takes the truthiness of that value. A nonempty string
literal is always truthy. -/
def financial_loop_condition (user_query : String) : Bool :=
  if user_query ≠ "exit" then true else pyTruthyStr "bye"

/-! ## The LangGraph decision predicate and graph
(src/src/analysis_agent_spec.py, should_continue lines 83-86 and
build_the_graph lines 89-102)

Messages are the langchain message objects stored in the state: HumanMessage
has no tool_calls attribute, AIMessage has one holding a list of requested
tool calls. -/

/-- One requested tool call carried by an assistant message. -/
structure ToolCall where
  name : String
  args : String
deriving DecidableEq

/-- A langchain message as stored in AgentSchema. -/
inductive LCMessage
  | human (content : String)
  | ai (content : String) (tool_calls : List ToolCall)
deriving DecidableEq

/-- The graph state: a list of messages. -/
structure AgentSchema where
  messages : List LCMessage
deriving DecidableEq

/-- Embedding of hasattr(m, "tool_calls"): false on HumanMessage, true on
AIMessage. -/
def hasattrToolCalls : LCMessage → Bool
  | .human _ => false
  | .ai _ _ => true

/-- The tool_calls attribute where it exists; the empty list on HumanMessage,
which the source never reads because the hasattr conjunct short-circuits. -/
def toolCallsOf : LCMessage → List ToolCall
  | .human _ => []
  | .ai _ tcs => tcs

/-- Embedding of should_continue: indexing messages with -1 raises IndexError
on an empty list (modelled as none); otherwise the result is the hasattr test
conjoined with the tool_calls length test. -/
def should_continue (state : AgentSchema) : Option Bool :=
  match state.messages.getLast? with
  | none => none
  | some last_message =>
    some (hasattrToolCalls last_message && decide ((toolCallsOf last_message).length > 0))

/-- Target of a conditional edge: a named node or the END sentinel. -/
inductive GraphTarget
  | node (name : String)
  | endTarget
deriving DecidableEq

/-- A conditional edge as added by add_conditional_edges: a source node and
the path map from the predicate value to the next target. -/
structure CondEdge where
  source : String
  path_map : Bool → GraphTarget

/-- The fragment of the StateGraph observable from build_the_graph: nodes,
entry point, and the single conditional edge. -/
structure GraphModel where
  nodes : List String
  entry : String
  cond : CondEdge

/-- Embedding of build_the_graph: one node, entry at that node, and a
conditional edge mapping true back to the agent node and false to END. -/
def build_the_graph : GraphModel :=
  { nodes := ["financial_analyst_agent"]
    entry := "financial_analyst_agent"
    cond :=
      { source := "financial_analyst_agent"
        path_map := fun b => if b then .node "financial_analyst_agent" else .endTarget } }

/-! ## Chitchat tool (src/src/analysis_agent.py, handle_chitchat lines 244-256) -/

/-- The fixed greeting substrings of the source. -/
def greetings : List String :=
  ["hello", "hi", "hey", "greetings", "good morning", "good afternoon"]

/-- The canned greeting-branch response of the source. -/
def greetingResponse : String :=
  "Hello! I\x27m your AI Sales Data Analyst. I can help you analyze sales data, answer questions about customers, products, employees, and sales trends. What would you like to know?"

/-- The canned fallback-branch response of the source. -/
def fallbackResponse : String :=
  "I\x27m here to help you analyze sales data. Feel free to ask me questions about sales, customers, products, employees, or any data analysis needs!"

/-- Embedding of handle_chitchat: lower the message, answer with the greeting
response when any greeting substring occurs in it, with the fallback response
otherwise. -/
def handle_chitchat (message : String) : String :=
  let message_lower := pyLower message
  if greetings.any (fun greeting => containsSub message_lower.data greeting.data) then
    greetingResponse
  else
    fallbackResponse

/-! ## Visualization tool (src/src/analysis_agent.py, generate_visualization
lines 186-199) -/

/-- The valid chart types of the source. -/
def valid_types : List String := ["bar", "line", "pie", "scatter", "histogram", "box"]

/-- Embedding of generate_visualization: an unknown chart type is replaced by
bar, and the acknowledgement string names the (upper-cased) chart type and
the description. -/
def generate_visualization (data_description : String) (chart_type : String) : String :=
  let ct := if valid_types.contains chart_type then chart_type else "bar"
  "Generated " ++ pyUpper ct ++ " chart for: " ++ data_description ++
    ". Chart would be displayed in the UI."

/-! ## Schema introspection (src/src/utils.py,
get_table_schema_and_sample_rows lines 32-119)

The sqlite connection is a record of the three query shapes the function
issues: the sqlite_master table list, PRAGMA table_info for one table, and
select star limit 2 for one table. Each can fail with a sqlite error message;
the source has no try clause, so in the embedding every failure propagates
through the Except monad and aborts the whole describe. A fetched row is a
total mapping from column name to value, which is how sqlite3.Row behaves for
a select star. -/

/-- A cell value inside the store. -/
inductive Val
  | str (s : String)
  | intv (n : Int)
  | nullv
deriving DecidableEq

/-- The per-table part of the returned structure: the schema dictionary and
the sample row dictionaries. -/
structure TableEntry where
  schema : List (String × String)
  sample_rows : List (List (String × Val))

/-- The whole returned structure: the tables dictionary. -/
structure SchemaAndSamples where
  tables : List (String × TableEntry)

/-- The sqlite store as observed by the introspector. -/
structure Store where
  masterTables : Except String (List String)
  tableInfo : String → Except String (List (String × String))
  selectLimit2 : String → Except String (List (String → Val))

/-- Python dict assignment d[k] = v on an insertion-ordered dictionary: an
existing key keeps its position and receives the new value, a new key is
appended at the end. -/
def dictInsert {α : Type} (d : List (String × α)) (k : String) (v : α) :
    List (String × α) :=
  if d.any (fun p => p.1 == k) then
    d.map (fun p => if p.1 == k then (p.1, v) else p)
  else d ++ [(k, v)]

/-- A Python dict comprehension over a pair list, built by repeated
assignment. -/
def dictOfPairs {α : Type} (ps : List (String × α)) : List (String × α) :=
  ps.foldl (fun d p => dictInsert d p.1 p.2) []

/-- The entry built for one table: the schema comprehension over the PRAGMA
columns, and per fetched row the record comprehension keyed by the schema
keys. -/
def buildEntry (cols : List (String × String)) (rows : List (String → Val)) :
    TableEntry :=
  let schema := dictOfPairs cols
  let records := rows.map (fun row => dictOfPairs (schema.map (fun p => (p.1, row p.1))))
  ⟨schema, records⟩

/-- The per-table loop of get_table_schema_and_sample_rows: for each table,
run PRAGMA table_info and the two-row select, and assign the entry into the
tables dictionary; any sqlite error propagates and aborts. -/
def describeGo (db : Store) (acc : List (String × TableEntry)) :
    List String → Except String (List (String × TableEntry))
  | [] => .ok acc
  | tb :: rest => do
    let cols ← db.tableInfo tb
    let rows ← db.selectLimit2 tb
    describeGo db (dictInsert acc tb (buildEntry cols rows)) rest

/-- Embedding of get_table_schema_and_sample_rows: list the tables, then run
the per-table loop; there is no exception handling anywhere in the source, so
every sqlite error aborts the whole describe. -/
def get_table_schema_and_sample_rows (db : Store) : Except String SchemaAndSamples := do
  let tables ← db.masterTables
  let entries ← describeGo db [] tables
  .ok ⟨entries⟩

/-! ## CSV loading (src/src/utils.py, load_csv_files_into_sqlitedb lines
9-28)

A CSV file is its header and its rows. The pandas to_sql call creates one
table per file with the header columns in order and a library-inferred
declared type per column; the inference is external library behaviour and is
abstracted as a function from table and column name to a type name. A loaded
table answers PRAGMA table_info with its columns and the two-row select with
its first two rows; a table outside the fixed six does not exist. -/

/-- A parsed CSV file. -/
structure CSV where
  header : List String
  rows : List (List Val)

/-- The fixed table-to-file dictionary of the source, in insertion order. -/
def tableNames : List String :=
  ["cities", "countries", "customers", "employees", "products", "sales"]

/-- Row access by column name for a select star result: the value at the
position of the column in the header. -/
def csvRowFun (header : List String) (vals : List Val) : String → Val :=
  fun k =>
    match header.indexOf? k with
    | some i => vals.getD i Val.nullv
    | none => Val.nullv

/-- Embedding of load_csv_files_into_sqlitedb as the store it produces: the
six tables in dictionary order, each answering introspection queries from its
CSV file; ti abstracts the pandas/sqlite declared-type inference. -/
def load_csv_files_into_sqlitedb (ti : String → String → String)
    (csvOf : String → CSV) : Store :=
  { masterTables := .ok tableNames
    tableInfo := fun tb =>
      if tableNames.contains tb then
        .ok ((csvOf tb).header.map (fun c => (c, ti tb c)))
      else .error ("no such table: " ++ tb)
    selectLimit2 := fun tb =>
      if tableNames.contains tb then
        .ok (((csvOf tb).rows.take 2).map (csvRowFun (csvOf tb).header))
      else .error ("no such table: " ++ tb) }

/-- The entry that describe builds for one loaded table. -/
def loadEntry (ti : String → String → String) (csvOf : String → CSV)
    (tb : String) : TableEntry :=
  buildEntry ((csvOf tb).header.map (fun c => (c, ti tb c)))
    (((csvOf tb).rows.take 2).map (csvRowFun (csvOf tb).header))

/-! ## Concrete instances used by witnesses and counterexamples -/

/-- A store with two tables in which the metadata query of the first table
fails while both queries of the second table succeed. -/
def brokenStore : Store :=
  { masterTables := .ok ["customers", "products"]
    tableInfo := fun tb =>
      if tb = "customers" then .error "database disk image is malformed"
      else if tb = "products" then .ok [("ProductID", "INTEGER")]
      else .error ("no such table: " ++ tb)
    selectLimit2 := fun tb =>
      if tb = "products" then .ok []
      else .error ("no such table: " ++ tb) }

/-- The three product columns of the schema round-trip scenario. -/
def ProductCols : List String := ["ProductID", "ProductName", "Price"]

/-- A concrete data directory: every CSV file has the product header and
three rows. -/
def csv0 : String → CSV := fun _ =>
  { header := ProductCols
    rows := [[Val.intv 1, Val.str "Widget", Val.intv 9],
             [Val.intv 2, Val.str "Gadget", Val.intv 8],
             [Val.intv 3, Val.str "Gizmo", Val.intv 7]] }

/-- A concrete declared-type inference. -/
def ti0 : String → String → String := fun _ _ => "TEXT"

/-- A concrete graph state whose last message is an assistant message with
one pending tool call. -/
def s0 : AgentSchema :=
  { messages := [LCMessage.human "show revenue",
                 LCMessage.ai "" [⟨"sql_executor", "select 1"⟩]] }

/-! ## Helper lemmas -/

theorem stringDataAppend (a b : String) : (a ++ b).data = a.data ++ b.data := rfl

theorem matchHere_iff (pat s : List Char) :
    matchHere s pat = true ↔ ∃ rest, s = pat ++ rest := by
  induction pat generalizing s with
  | nil => simp [matchHere]
  | cons p ps ih =>
    cases s with
    | nil => simp [matchHere]
    | cons c cs =>
      simp only [matchHere, Bool.and_eq_true, beq_iff_eq, ih, List.cons_append,
        List.cons.injEq]
      constructor
      · rintro ⟨hcp, rest, hrest⟩
        exact ⟨rest, hcp, hrest⟩
      · rintro ⟨rest, hcp, hrest⟩
        exact ⟨hcp, rest, hrest⟩

theorem containsSub_iff (s pat : List Char) :
    containsSub s pat = true ↔ ∃ pre post, s = pre ++ pat ++ post := by
  induction s with
  | nil =>
    simp only [containsSub, List.isEmpty_iff]
    constructor
    · intro h
      exact ⟨[], [], by simp [h]⟩
    · rintro ⟨pre, post, h⟩
      rcases List.append_eq_nil.mp (List.append_eq_nil.mp h.symm).1 with ⟨_, h2⟩
      exact h2
  | cons c cs ih =>
    simp only [containsSub, Bool.or_eq_true, matchHere_iff, ih]
    constructor
    · rintro (⟨rest, hrest⟩ | ⟨pre, post, h⟩)
      · exact ⟨[], rest, by simp [hrest]⟩
      · exact ⟨c :: pre, post, by simp [h]⟩
    · rintro ⟨pre, post, h⟩
      cases pre with
      | nil => exact Or.inl ⟨post, by simpa using h⟩
      | cons p ps =>
        simp only [List.cons_append, List.cons.injEq] at h
        exact Or.inr ⟨ps, post, h.2⟩

theorem dictInsert_push {α : Type} (d : List (String × α)) (k : String) (v : α)
    (h : k ∉ d.map Prod.fst) : dictInsert d k v = d ++ [(k, v)] := by
  have : d.any (fun p => p.1 == k) = false := by
    by_contra hany
    rw [Bool.not_eq_false, List.any_eq_true] at hany
    obtain ⟨p, hp, hpk⟩ := hany
    rw [beq_iff_eq] at hpk
    exact h (hpk ▸ List.mem_map_of_mem Prod.fst hp)
  simp [dictInsert, this]

theorem dictOfPairs_aux {α : Type} (ps acc : List (String × α))
    (h : ((acc ++ ps).map Prod.fst).Nodup) :
    ps.foldl (fun d p => dictInsert d p.1 p.2) acc = acc ++ ps := by
  induction ps generalizing acc with
  | nil => simp
  | cons p ps ih =>
    have hk : p.1 ∉ acc.map Prod.fst := by
      intro hmem
      have := h
      simp only [List.map_append, List.nodup_append, List.map_cons] at this
      exact this.2.2 hmem (by simp)
    have hstep : dictInsert acc p.1 p.2 = acc ++ [p] := by
      rw [dictInsert_push _ _ _ hk]
    simp only [List.foldl_cons, hstep]
    have hperm : (acc ++ [p]) ++ ps = acc ++ p :: ps := by simp
    rw [ih (acc ++ [p]) (by rw [hperm]; exact h)]
    simp

theorem dictOfPairs_self {α : Type} (ps : List (String × α))
    (h : (ps.map Prod.fst).Nodup) : dictOfPairs ps = ps := by
  have := dictOfPairs_aux ps [] (by simpa using h)
  simpa [dictOfPairs] using this

theorem exceptBindOk {ε α β : Type} (a : α) (f : α → Except ε β) :
    (Except.ok a >>= f : Except ε β) = f a := rfl

theorem exceptBindErr {ε α β : Type} (e : ε) (f : α → Except ε β) :
    (Except.error e >>= f : Except ε β) = Except.error e := rfl

theorem alternatesUA_append (h : List HistEntry) (u a : HistEntry)
    (hh : alternatesUA h = true) (hu : u.role = "user") (ha : a.role = "assistant") :
    alternatesUA (h ++ [u, a]) = true := by
  induction h using alternatesUA.induct with
  | case1 => simp [alternatesUA, hu, ha]
  | case2 x => simp [alternatesUA] at hh
  | case3 x y rest ih =>
    simp only [alternatesUA, Bool.and_eq_true, beq_iff_eq] at hh
    simp only [List.cons_append, alternatesUA, Bool.and_eq_true, beq_iff_eq]
    exact ⟨⟨hh.1.1, hh.1.2⟩, ih hh.2⟩

theorem alternatesUA_even (h : List HistEntry) (hh : alternatesUA h = true) :
    h.length % 2 = 0 := by
  induction h using alternatesUA.induct with
  | case1 => rfl
  | case2 x => simp [alternatesUA] at hh
  | case3 x y rest ih =>
    simp only [alternatesUA, Bool.and_eq_true] at hh
    have := ih hh.2
    simp only [List.length_cons]
    omega

theorem alternatesUA_applyOp (h : List HistEntry) (op : AgentOp)
    (hh : alternatesUA h = true) : alternatesUA (applyOp h op) = true := by
  cases op with
  | chatOp ts msg outcome =>
    cases outcome with
    | success ts2 resp =>
      exact alternatesUA_append h _ _ hh rfl rfl
    | failure err => exact hh
  | resetOp => rfl

theorem alternatesUA_runOps (h : List HistEntry) (ops : List AgentOp)
    (hh : alternatesUA h = true) : alternatesUA (runOps h ops) = true := by
  induction ops generalizing h with
  | nil => exact hh
  | cons op ops ih => exact ih (applyOp h op) (alternatesUA_applyOp h op hh)

theorem describeGo_error (db : Store) (ts : List String) (tb : String)
    (hmem : tb ∈ ts)
    (herr : (db.tableInfo tb).isOk = false ∨ (db.selectLimit2 tb).isOk = false) :
    ∀ acc, ∃ e, describeGo db acc ts = .error e := by
  induction ts with
  | nil => cases hmem
  | cons hd rest ih =>
    intro acc
    cases hti : db.tableInfo hd with
    | error e => exact ⟨e, by simp [describeGo, hti, exceptBindErr]⟩
    | ok cols =>
      cases hsel : db.selectLimit2 hd with
      | error e => exact ⟨e, by simp [describeGo, hti, hsel, exceptBindOk, exceptBindErr]⟩
      | ok rows =>
        have hne : hd ≠ tb := by
          rintro rfl
          rcases herr with hbad | hbad
          · rw [hti] at hbad
            simp [Except.isOk, Except.toBool] at hbad
          · rw [hsel] at hbad
            simp [Except.isOk, Except.toBool] at hbad
        have hrest : tb ∈ rest := by
          rcases List.mem_cons.mp hmem with heq | hres
          · exact absurd heq.symm hne
          · exact hres
        obtain ⟨e, he⟩ := ih hrest (dictInsert acc hd (buildEntry cols rows))
        exact ⟨e, by simp [describeGo, hti, hsel, exceptBindOk, he]⟩

theorem describeGo_load (ti : String → String → String) (csvOf : String → CSV)
    (ts : List String) (h : ∀ tb ∈ ts, tableNames.contains tb = true) :
    ∀ acc, describeGo (load_csv_files_into_sqlitedb ti csvOf) acc ts =
      .ok (ts.foldl (fun a tb => dictInsert a tb (loadEntry ti csvOf tb)) acc) := by
  induction ts with
  | nil => intro acc; rfl
  | cons hd rest ih =>
    intro acc
    have hhd : tableNames.contains hd = true := h hd (by simp)
    have hrest : ∀ tb ∈ rest, tableNames.contains tb = true :=
      fun tb htb => h tb (List.mem_cons_of_mem hd htb)
    simp only [describeGo, load_csv_files_into_sqlitedb, hhd, if_true, exceptBindOk,
      List.foldl_cons]
    exact ih hrest _

/-! ## Claim theorems for the session loops and the conversation history -/

/-- Claim C3 (evaluation at the failing input): the main.py driver loop does
leave the loop on exit, quit and bye inputs, but the while condition of
financial_analyst_agent is true at user_query equal to exit — and at every
other input — because the or-expression with the nonempty string literal is
constantly truthy, so that session loop never terminates on those commands. -/
theorem exit_command_evaluation :
    mainLoopStep [] "exit" "t1" (ChatOutcome.failure "stub") = SessionAction.exitLoop ∧
    mainLoopStep [] " Quit " "t1" (ChatOutcome.failure "stub") = SessionAction.exitLoop ∧
    mainLoopStep [] "BYE" "t1" (ChatOutcome.failure "stub") = SessionAction.exitLoop ∧
    financial_loop_condition "exit" = true ∧
    financial_loop_condition "quit" = true ∧
    financial_loop_condition "bye" = true ∧
    (∀ q : String, financial_loop_condition q = true) := by
  refine ⟨by decide, by decide, by decide, rfl, rfl, rfl, ?_⟩
  intro q
  have hb : pyTruthyStr "bye" = true := rfl
  simp [financial_loop_condition, hb]

/-- Claim C4: on a nonempty state the decision predicate is some true exactly
when the last message carries at least one tool call; it depends only on the
last message; and the path map of the conditional edge re-enters the agent
node exactly on true. -/
theorem should_continue_spec (s : AgentSchema) (hne : s.messages ≠ []) :
    (∃ m, s.messages.getLast? = some m ∧
      (should_continue s = some true ↔ toolCallsOf m ≠ [])) ∧
    (∀ s' : AgentSchema, s'.messages ≠ [] →
      s'.messages.getLast? = s.messages.getLast? → should_continue s' = should_continue s) ∧
    (∀ b, build_the_graph.cond.path_map b =
      GraphTarget.node "financial_analyst_agent" ↔ b = true) := by
  have hsome : (s.messages.getLast?).isSome := List.getLast?_isSome.mpr hne
  obtain ⟨m, hm⟩ := Option.isSome_iff_exists.mp hsome
  refine ⟨⟨m, hm, ?_⟩, ?_, ?_⟩
  · simp only [should_continue, hm]
    cases m with
    | human c => simp [hasattrToolCalls, toolCallsOf]
    | ai c tcs =>
      cases tcs with
      | nil => simp [hasattrToolCalls, toolCallsOf]
      | cons t ts => simp [hasattrToolCalls, toolCallsOf]
  · intro s' _ heq
    simp only [should_continue, heq]
  · intro b
    cases b with
    | true => simp [build_the_graph]
    | false => simp [build_the_graph]

/-- Claim C4 witness: the concrete state s0 is nonempty and satisfies the
conclusion. -/
theorem should_continue_spec_witness :
    s0.messages ≠ [] ∧
    ((∃ m, s0.messages.getLast? = some m ∧
      (should_continue s0 = some true ↔ toolCallsOf m ≠ [])) ∧
    (∀ s' : AgentSchema, s'.messages ≠ [] →
      s'.messages.getLast? = s0.messages.getLast? → should_continue s' = should_continue s0) ∧
    (∀ b, build_the_graph.cond.path_map b =
      GraphTarget.node "financial_analyst_agent" ↔ b = true)) :=
  ⟨by decide, should_continue_spec s0 (by decide)⟩

/-- Claim C5 counterexample: in brokenStore both queries for the products
table succeed while the metadata query of the customers table fails, yet the
whole describe returns an error, so no schema entry for products (or for any
table) is returned. -/
theorem describe_partial_results_counterexample :
    (brokenStore.tableInfo "products").isOk = true ∧
    (brokenStore.selectLimit2 "products").isOk = true ∧
    (brokenStore.tableInfo "customers").isOk = false ∧
    get_table_schema_and_sample_rows brokenStore =
      Except.error "database disk image is malformed" :=
  ⟨rfl, rfl, rfl, rfl⟩

/-- Claim C5 as amended: if the metadata or sample-row query of any listed
table errors, the whole describe aborts with an error; no partial results are
produced for the other tables. -/
theorem describe_aborts_on_table_error (db : Store) (ts : List String) (tb : String)
    (hts : db.masterTables = .ok ts) (hmem : tb ∈ ts)
    (herr : (db.tableInfo tb).isOk = false ∨ (db.selectLimit2 tb).isOk = false) :
    ∃ e, get_table_schema_and_sample_rows db = .error e := by
  obtain ⟨e, he⟩ := describeGo_error db ts tb hmem herr []
  exact ⟨e, by simp [get_table_schema_and_sample_rows, hts, exceptBindOk, he, exceptBindErr]⟩

/-- Claim C5 witness: the amended statement applied to brokenStore at the
customers table. -/
theorem describe_aborts_on_table_error_witness :
    brokenStore.masterTables = Except.ok ["customers", "products"] ∧
    "customers" ∈ ["customers", "products"] ∧
    ((brokenStore.tableInfo "customers").isOk = false ∨
      (brokenStore.selectLimit2 "customers").isOk = false) ∧
    ∃ e, get_table_schema_and_sample_rows brokenStore = Except.error e :=
  ⟨rfl, by decide, Or.inl rfl,
    describe_aborts_on_table_error brokenStore ["customers", "products"] "customers" rfl
      (by decide) (Or.inl rfl)⟩

/-- Claim C6: over any operation sequence, appending one more operation either
is a reset, which empties the history, or leaves the previous history as a
prefix (in particular the length never decreases); no operation removes only
part of the history. -/
theorem conversation_history_monotone :
    ∀ (h : List HistEntry) (ops : List AgentOp) (op : AgentOp),
      (op = AgentOp.resetOp ∧ runOps h (ops ++ [op]) = []) ∨
      ((runOps h ops).length ≤ (runOps h (ops ++ [op])).length ∧
        ∃ t, runOps h (ops ++ [op]) = runOps h ops ++ t) := by
  intro h ops op
  have hfold : runOps h (ops ++ [op]) = applyOp (runOps h ops) op := by
    simp [runOps, List.foldl_append]
  cases op with
  | resetOp => exact Or.inl ⟨rfl, by rw [hfold]; rfl⟩
  | chatOp ts msg outcome =>
    refine Or.inr ?_
    cases outcome with
    | success ts2 resp =>
      rw [hfold]
      exact ⟨by simp [applyOp, chat], ⟨[⟨ts, "user", msg⟩, ⟨ts2, "assistant", resp⟩], rfl⟩⟩
    | failure err =>
      rw [hfold]
      exact ⟨le_refl _, ⟨[], by simp [applyOp, chat]⟩⟩

/-- Claim C10: starting from the empty history of a fresh agent, any sequence
of chat and reset operations leaves the history strictly alternating user
then assistant entries, hence of even length; a successful chat appends
exactly the user and assistant entries in that order, a failed chat appends
nothing, and reset empties the history. -/
theorem history_alternation :
    (∀ ops : List AgentOp,
      alternatesUA (runOps [] ops) = true ∧ (runOps [] ops).length % 2 = 0) ∧
    (∀ (h : List HistEntry) (ts ts2 msg resp : String),
      applyOp h (AgentOp.chatOp ts msg (ChatOutcome.success ts2 resp)) =
        h ++ [⟨ts, "user", msg⟩, ⟨ts2, "assistant", resp⟩]) ∧
    (∀ (h : List HistEntry) (ts msg err : String),
      applyOp h (AgentOp.chatOp ts msg (ChatOutcome.failure err)) = h) ∧
    (∀ h : List HistEntry, applyOp h AgentOp.resetOp = []) := by
  refine ⟨?_, fun _ _ _ _ _ => rfl, fun _ _ _ _ => rfl, fun _ => rfl⟩
  intro ops
  have hinv := alternatesUA_runOps [] ops rfl
  exact ⟨hinv, alternatesUA_even _ hinv⟩

/-! ## Claim theorems for the chitchat and visualization tools -/

theorem greetings_any_iff (m : String) :
    greetings.any (fun greeting => containsSub (pyLower m).data greeting.data) = true ↔
      ∃ g ∈ greetings, ∃ pre post, (pyLower m).data = pre ++ g.data ++ post := by
  rw [List.any_eq_true]
  constructor
  · rintro ⟨g, hg, hsub⟩
    obtain ⟨pre, post, hd⟩ := (containsSub_iff _ _).mp hsub
    exact ⟨g, hg, pre, post, hd⟩
  · rintro ⟨g, hg, pre, post, hd⟩
    exact ⟨g, hg, (containsSub_iff _ _).mpr ⟨pre, post, hd⟩⟩

/-- Claim C7: the chitchat tool answers with the canned greeting exactly when
some member of the fixed greeting set occurs as a substring of the lowered
message, answers with the canned fallback in every other case, and on the two
concrete inputs of the spec it takes the greeting branch and the fallback
branch respectively. -/
theorem handle_chitchat_spec :
    (∀ m : String, handle_chitchat m = greetingResponse ↔
      ∃ g ∈ greetings, ∃ pre post, (pyLower m).data = pre ++ g.data ++ post) ∧
    (∀ m : String,
      handle_chitchat m = greetingResponse ∨ handle_chitchat m = fallbackResponse) ∧
    handle_chitchat "Hello there" = greetingResponse ∧
    handle_chitchat "what\x27s the revenue trend" = fallbackResponse := by
  have hne : greetingResponse ≠ fallbackResponse := by decide
  refine ⟨?_, ?_, by decide, by decide⟩
  · intro m
    cases hcond : greetings.any (fun greeting => containsSub (pyLower m).data greeting.data) with
    | true =>
      have hg : handle_chitchat m = greetingResponse := by
        simp [handle_chitchat, hcond]
      rw [hg]
      exact iff_of_true rfl ((greetings_any_iff m).mp hcond)
    | false =>
      have hf : handle_chitchat m = fallbackResponse := by
        simp [handle_chitchat, hcond]
      rw [hf]
      refine iff_of_false (fun heq => hne heq.symm) (fun hex => ?_)
      have := (greetings_any_iff m).mpr hex
      rw [hcond] at this
      exact Bool.noConfusion this
  · intro m
    cases hcond : greetings.any (fun greeting => containsSub (pyLower m).data greeting.data) with
    | true => exact Or.inl (by simp [handle_chitchat, hcond])
    | false => exact Or.inr (by simp [handle_chitchat, hcond])

/-- Claim C8: an unknown chart type is not rejected; the tool returns the same
acknowledgement as for bar, an acknowledgement that names the coerced chart
type (bar, upper-cased in the output) and contains the description verbatim. -/
theorem generate_visualization_unknown_coerced (d ct : String)
    (hct : valid_types.contains ct = false) :
    generate_visualization d ct = generate_visualization d "bar" ∧
    generate_visualization d ct =
      "Generated BAR chart for: " ++ d ++ ". Chart would be displayed in the UI." ∧
    (∃ pre post,
      (pyLower (generate_visualization d ct)).data = pre ++ "bar".data ++ post) ∧
    (∃ pre post, (generate_visualization d ct).data = pre ++ d.data ++ post) := by
  have hbar : valid_types.contains "bar" = true := by decide
  have hGB : ("Generated " ++ pyUpper "bar" ++ " chart for: " : String) =
      "Generated BAR chart for: " := by decide
  have h1 : generate_visualization d ct =
      "Generated BAR chart for: " ++ d ++ ". Chart would be displayed in the UI." := by
    simp only [generate_visualization, hct, Bool.false_eq_true, if_false]
    rw [← hGB]
  refine ⟨?_, h1, ?_, ?_⟩
  · rw [h1]
    simp only [generate_visualization, hbar, if_true]
    rw [← hGB]
  · refine ⟨"generated ".data,
      " chart for: ".data ++ d.data.map charLower ++
        ". chart would be displayed in the ui.".data, ?_⟩
    rw [h1]
    show (("Generated BAR chart for: " ++ d ++
      ". Chart would be displayed in the UI.").data).map charLower = _
    simp only [stringDataAppend, List.map_append]
    have hA : ("Generated BAR chart for: ".data).map charLower =
        "generated ".data ++ "bar".data ++ " chart for: ".data := by decide
    have hS : (". Chart would be displayed in the UI.".data).map charLower =
        ". chart would be displayed in the ui.".data := by decide
    rw [hA, hS]
    simp [List.append_assoc]
  · refine ⟨"Generated BAR chart for: ".data,
      ". Chart would be displayed in the UI.".data, ?_⟩
    rw [h1]
    simp [stringDataAppend]

/-- Claim C8 witness: the treemap chart type is unknown and the conclusion
holds at that concrete input. -/
theorem generate_visualization_unknown_witness :
    valid_types.contains "treemap" = false ∧
    (generate_visualization "sales by region" "treemap" =
        generate_visualization "sales by region" "bar" ∧
      generate_visualization "sales by region" "treemap" =
        "Generated BAR chart for: " ++ "sales by region" ++
          ". Chart would be displayed in the UI." ∧
      (∃ pre post,
        (pyLower (generate_visualization "sales by region" "treemap")).data =
          pre ++ "bar".data ++ post) ∧
      (∃ pre post, (generate_visualization "sales by region" "treemap").data =
        pre ++ "sales by region".data ++ post)) :=
  ⟨by decide, generate_visualization_unknown_coerced "sales by region" "treemap" (by decide)⟩

/-! ## Claim theorem for the schema round-trip -/

theorem map_fst_pairs {α β : Type} (f : α → β) (l : List α) :
    ((l.map (fun c => (c, f c))).map Prod.fst) = l := by
  induction l with
  | nil => rfl
  | cons x xs ih => simp [ih]

theorem map_fst_reval {β : Type} (g : String → β) (ps : List (String × String)) :
    ((ps.map (fun p => (p.1, g p.1))).map Prod.fst) = ps.map Prod.fst := by
  induction ps with
  | nil => rfl
  | cons x xs ih => simp [ih]

/-- Claim C9: loading a data directory whose products file has exactly the
three product columns (no duplicates) and three rows, then describing the
store, yields a products entry whose schema keys are exactly those columns
and whose sample rows are two records each containing all three keys. -/
theorem describe_products_roundtrip (ti : String → String → String)
    (csvOf : String → CSV)
    (hnd : (csvOf "products").header.Nodup)
    (hset : ∀ k, k ∈ (csvOf "products").header ↔ k ∈ ProductCols)
    (hlen : (csvOf "products").rows.length = 3) :
    ∃ entries,
      get_table_schema_and_sample_rows (load_csv_files_into_sqlitedb ti csvOf) =
        Except.ok ⟨entries⟩ ∧
      ∃ e, entries.lookup "products" = some e ∧
        (∀ k, k ∈ e.schema.map Prod.fst ↔ k ∈ ProductCols) ∧
        e.sample_rows.length = 2 ∧ e.sample_rows.length ≤ 2 ∧
        ∀ r ∈ e.sample_rows, ∀ k ∈ ProductCols, k ∈ r.map Prod.fst := by
  have hload := describeGo_load ti csvOf tableNames (by decide) []
  have hmt : (load_csv_files_into_sqlitedb ti csvOf).masterTables = .ok tableNames := rfl
  have hfst : (((csvOf "products").header.map
      (fun c => (c, ti "products" c))).map Prod.fst) = (csvOf "products").header :=
    map_fst_pairs _ _
  have hnodc : ((((csvOf "products").header.map
      (fun c => (c, ti "products" c))).map Prod.fst)).Nodup := by
    rw [hfst]; exact hnd
  have hschema : (loadEntry ti csvOf "products").schema =
      (csvOf "products").header.map (fun c => (c, ti "products" c)) := by
    simp only [loadEntry, buildEntry]
    exact dictOfPairs_self _ hnodc
  have hsr : (loadEntry ti csvOf "products").sample_rows =
      (((csvOf "products").rows.take 2).map (csvRowFun (csvOf "products").header)).map
        (fun row => dictOfPairs
          (((csvOf "products").header.map (fun c => (c, ti "products" c))).map
            (fun p => (p.1, row p.1)))) := by
    simp only [loadEntry, buildEntry]
    rw [dictOfPairs_self _ hnodc]
  have hE : tableNames.foldl (fun a tb => dictInsert a tb (loadEntry ti csvOf tb)) [] =
      [("cities", loadEntry ti csvOf "cities"),
       ("countries", loadEntry ti csvOf "countries"),
       ("customers", loadEntry ti csvOf "customers"),
       ("employees", loadEntry ti csvOf "employees"),
       ("products", loadEntry ti csvOf "products"),
       ("sales", loadEntry ti csvOf "sales")] := by
    simp [tableNames, dictInsert]
  refine ⟨tableNames.foldl (fun a tb => dictInsert a tb (loadEntry ti csvOf tb)) [],
    ?_, loadEntry ti csvOf "products", ?_, ?_, ?_, ?_, ?_⟩
  · simp only [get_table_schema_and_sample_rows, hmt, exceptBindOk, hload]
  · rw [hE]
    simp [List.lookup]
  · intro k
    rw [hschema, hfst]
    exact hset k
  · rw [hsr]
    simp only [List.length_map, List.length_take, hlen]
    decide
  · rw [hsr]
    simp only [List.length_map, List.length_take, hlen]
    decide
  · intro r hr k hk
    rw [hsr] at hr
    obtain ⟨row, _hrow, hrfl⟩ := List.mem_map.mp hr
    have hfst2 : (((((csvOf "products").header.map (fun c => (c, ti "products" c))).map
        (fun p => (p.1, row p.1))).map Prod.fst)) =
        (((csvOf "products").header.map (fun c => (c, ti "products" c))).map Prod.fst) :=
      map_fst_reval _ _
    have hnod2 : (((((csvOf "products").header.map (fun c => (c, ti "products" c))).map
        (fun p => (p.1, row p.1))).map Prod.fst)).Nodup := by
      rw [hfst2]; exact hnodc
    rw [← hrfl, dictOfPairs_self _ hnod2, hfst2, hfst]
    exact (hset k).mpr hk

/-- Claim C9 witness: the concrete directory csv0 satisfies the hypotheses
and the conclusion. -/
theorem describe_products_roundtrip_witness :
    (csv0 "products").header.Nodup ∧
    (∀ k, k ∈ (csv0 "products").header ↔ k ∈ ProductCols) ∧
    (csv0 "products").rows.length = 3 ∧
    (∃ entries,
      get_table_schema_and_sample_rows (load_csv_files_into_sqlitedb ti0 csv0) =
        Except.ok ⟨entries⟩ ∧
      ∃ e, entries.lookup "products" = some e ∧
        (∀ k, k ∈ e.schema.map Prod.fst ↔ k ∈ ProductCols) ∧
        e.sample_rows.length = 2 ∧ e.sample_rows.length ≤ 2 ∧
        ∀ r ∈ e.sample_rows, ∀ k ∈ ProductCols, k ∈ r.map Prod.fst) :=
  ⟨by decide, fun _ => Iff.rfl, rfl,
    describe_products_roundtrip ti0 csv0 (by decide) (fun _ => Iff.rfl) rfl⟩
